import Mathlib

/-!
Shallow embedding of `src/utils/xlsx-importer.py`.

The script reads a spreadsheet into a data frame, iterates its rows in file
order, builds a five-key dictionary per row (the four scalar cells copied
verbatim, plus a `metadata` value obtained by JSON-parsing the cell when the
column is present and the cell is non-null, else the empty object), and
issues one insert call per row against the remote `events` table.  Any
exception (key lookup, JSON decode, network) aborts the whole run.

External library behaviour is modelled as follows:
* spreadsheet rows are association lists from column names to cell values,
  with `Cell.na` standing for a pandas null (`pd.notna` returns false on it);
* `json.loads` is a parameter `parse : String → Option Json` (it is Python
  standard-library code, not part of this repository); `none` stands for a
  `JSONDecodeError`, and calling it on a non-string cell is a `TypeError`;
* the per-row network insert is a parameter `fails : Nat → Bool` giving the
  outcome of the i-th insert call; the run records a trace of events
  (record transformed, record inserted) and stops at the first raised error.
-/

namespace XlsxImporter

/-- A structured JSON value, the result of `json.loads`. -/
inductive Json where
  | null
  | bool (b : Bool)
  | num (n : Int)
  | str (s : String)
  | arr (elems : List Json)
  | obj (fields : List (String × Json))

/-- A spreadsheet cell: a pandas null (NaN/None), a text cell, or a number. -/
inductive Cell where
  | na
  | str (s : String)
  | num (n : Int)
deriving DecidableEq

/-- A value of the `event_data` dictionary: one of the four scalar cells
copied verbatim, or the structured metadata value. -/
inductive Value where
  | cell (c : Cell)
  | json (j : Json)

/-- An uncaught Python exception aborting the run: a `KeyError` from a row
lookup, a `JSONDecodeError` from `json.loads`, a `TypeError` from calling
`json.loads` on a non-string, or a failure of the i-th insert call. -/
inductive Err where
  | keyError (k : String)
  | jsonError (s : String)
  | typeError
  | insertError (i : Nat)
deriving DecidableEq

/-- A row of the data frame: column name to cell, in header order. -/
abbrev Row := List (String × Cell)

/-- The `event_data` dictionary: key/value pairs in literal order. -/
abbrev EventData := List (String × Value)

/-- Column lookup by name, as the pandas row index resolves a label. -/
def findCol (r : Row) (k : String) : Option Cell :=
  match r with
  | [] => none
  | (k', c) :: rest => if k' = k then some c else findCol rest k

/-- `row[k]`: raises `KeyError k` when the column is absent. -/
def getItem (r : Row) (k : String) : Except Err Cell :=
  match findCol r k with
  | some c => Except.ok c
  | none => Except.error (Err.keyError k)

/-- `pd.notna(cell)`: false exactly on a null cell. -/
def notna : Cell → Bool
  | Cell.na => false
  | _ => true

/-- `json.loads(cell)` for a given string-level JSON decoder `parse`:
decodes a text cell, raises `JSONDecodeError` when decoding fails, and
raises `TypeError` on a non-string argument. -/
def jsonLoads (parse : String → Option Json) : Cell → Except Err Json
  | Cell.str s =>
      match parse s with
      | some j => Except.ok j
      | none => Except.error (Err.jsonError s)
  | _ => Except.error Err.typeError

/-- The metadata expression of the dict literal:
`json.loads(row["metadata"]) if "metadata" in row and pd.notna(row["metadata"]) else {}`. -/
def metadataExpr (parse : String → Option Json) (r : Row) : Except Err Json :=
  match findCol r "metadata" with
  | some c => if notna c then jsonLoads parse c else Except.ok (Json.obj [])
  | none => Except.ok (Json.obj [])

/-- The `event_data` dict literal: the five entries in source order, each
value expression evaluated left to right, aborting at the first exception. -/
def eventData (parse : String → Option Json) (r : Row) : Except Err EventData :=
  match getItem r "recording_id" with
  | Except.error e => Except.error e
  | Except.ok rid =>
    match getItem r "event_type_id" with
    | Except.error e => Except.error e
    | Except.ok etid =>
      match getItem r "timestamp" with
      | Except.error e => Except.error e
      | Except.ok ts =>
        match getItem r "offset_ms" with
        | Except.error e => Except.error e
        | Except.ok off =>
          match metadataExpr parse r with
          | Except.error e => Except.error e
          | Except.ok md =>
            Except.ok [("recording_id", Value.cell rid),
                       ("event_type_id", Value.cell etid),
                       ("timestamp", Value.cell ts),
                       ("offset_ms", Value.cell off),
                       ("metadata", Value.json md)]

/-- Key lookup inside an `event_data` dictionary. -/
def getKey (d : EventData) (k : String) : Option Value :=
  match d with
  | [] => none
  | (k', v) :: rest => if k' = k then some v else getKey rest k

/-- An observable step of the run: a record was built from a row, or a
record was successfully inserted into the `events` table. -/
inductive Event where
  | transformed (d : EventData)
  | inserted (d : EventData)

/-- The body of the `for _, row in df.iterrows()` loop starting at insert
index `i`: transform the row, then issue its insert; the first uncaught
exception ends the run, keeping the trace accumulated so far. -/
def runGo (parse : String → Option Json) (fails : Nat → Bool) :
    Nat → List Row → List Event × Option Err
  | _, [] => ([], none)
  | i, r :: rest =>
    match eventData parse r with
    | Except.error e => ([], some e)
    | Except.ok d =>
      if fails i then ([Event.transformed d], some (Err.insertError i))
      else
        (Event.transformed d :: Event.inserted d :: (runGo parse fails (i + 1) rest).1,
         (runGo parse fails (i + 1) rest).2)

/-- The whole import run over the rows of the sheet, in file order. -/
def run (parse : String → Option Json) (fails : Nat → Bool) (rows : List Row) :
    List Event × Option Err :=
  runGo parse fails 0 rows

/-- The trace a single successfully handled row contributes. -/
def rowEvents (parse : String → Option Json) (r : Row) : List Event :=
  match eventData parse r with
  | Except.ok d => [Event.transformed d, Event.inserted d]
  | Except.error _ => []

/-- The records of the successful insert calls of a trace, in order. -/
def insertedOf : List Event → List EventData
  | [] => []
  | Event.inserted d :: es => d :: insertedOf es
  | Event.transformed _ :: es => insertedOf es

/-- A concrete JSON decoder used to instantiate the `parse` parameter on
the handful of metadata texts exercised by the examples. -/
def parseDemo : String → Option Json
  | "\x7b\"a\":1\x7d" => some (Json.obj [("a", Json.num 1)])
  | "\x7b\x7d" => some (Json.obj [])
  | "null" => some Json.null
  | "[1,2]" => some (Json.arr [Json.num 1, Json.num 2])
  | "7" => some (Json.num 7)
  | _ => none

/-- A well-formed row with a JSON-object metadata cell. -/
def rowFull : Row :=
  [("recording_id", Cell.num 1), ("event_type_id", Cell.num 2),
   ("timestamp", Cell.str "2024-01-01"), ("offset_ms", Cell.num 100),
   ("metadata", Cell.str "\x7b\"a\":1\x7d")]

/-- The record derived from `rowFull`. -/
def recFull : EventData :=
  [("recording_id", Value.cell (Cell.num 1)),
   ("event_type_id", Value.cell (Cell.num 2)),
   ("timestamp", Value.cell (Cell.str "2024-01-01")),
   ("offset_ms", Value.cell (Cell.num 100)),
   ("metadata", Value.json (Json.obj [("a", Json.num 1)]))]

/-- A well-formed row whose metadata cell is null. -/
def rowNullMeta : Row :=
  [("recording_id", Cell.num 3), ("event_type_id", Cell.num 4),
   ("timestamp", Cell.str "2024-01-02"), ("offset_ms", Cell.num 200),
   ("metadata", Cell.na)]

/-- The record derived from `rowNullMeta`. -/
def recNullMeta : EventData :=
  [("recording_id", Value.cell (Cell.num 3)),
   ("event_type_id", Value.cell (Cell.num 4)),
   ("timestamp", Value.cell (Cell.str "2024-01-02")),
   ("offset_ms", Value.cell (Cell.num 200)),
   ("metadata", Value.json (Json.obj []))]

/-- A well-formed row with no metadata column at all. -/
def rowNoMeta : Row :=
  [("recording_id", Cell.num 5), ("event_type_id", Cell.num 6),
   ("timestamp", Cell.str "2024-01-03"), ("offset_ms", Cell.num 300)]

/-- The record derived from `rowNoMeta`. -/
def recNoMeta : EventData :=
  [("recording_id", Value.cell (Cell.num 5)),
   ("event_type_id", Value.cell (Cell.num 6)),
   ("timestamp", Value.cell (Cell.str "2024-01-03")),
   ("offset_ms", Value.cell (Cell.num 300)),
   ("metadata", Value.json (Json.obj []))]

/-- A row whose metadata cell is malformed JSON text. -/
def rowBadMeta : Row :=
  [("recording_id", Cell.num 7), ("event_type_id", Cell.num 8),
   ("timestamp", Cell.str "2024-01-04"), ("offset_ms", Cell.num 400),
   ("metadata", Cell.str "\x7bbad json")]

/-- A row whose metadata cell is the valid non-object JSON text `null`. -/
def rowNullLit : Row :=
  [("recording_id", Cell.num 9), ("event_type_id", Cell.num 10),
   ("timestamp", Cell.str "2024-01-05"), ("offset_ms", Cell.num 500),
   ("metadata", Cell.str "null")]

/-- The record derived from `rowNullLit`. -/
def recNullLit : EventData :=
  [("recording_id", Value.cell (Cell.num 9)),
   ("event_type_id", Value.cell (Cell.num 10)),
   ("timestamp", Value.cell (Cell.str "2024-01-05")),
   ("offset_ms", Value.cell (Cell.num 500)),
   ("metadata", Value.json Json.null)]

/-- A row missing the required `timestamp` column. -/
def rowNoTs : Row :=
  [("recording_id", Cell.num 11), ("event_type_id", Cell.num 12),
   ("offset_ms", Cell.num 600)]

example : eventData parseDemo rowFull = Except.ok recFull := rfl
example : eventData parseDemo rowNullMeta = Except.ok recNullMeta := rfl
example : eventData parseDemo rowNoMeta = Except.ok recNoMeta := rfl
example : eventData parseDemo rowNullLit = Except.ok recNullLit := rfl
example : eventData parseDemo rowBadMeta =
    Except.error (Err.jsonError "\x7bbad json") := rfl
example : eventData parseDemo rowNoTs =
    Except.error (Err.keyError "timestamp") := rfl
example : run parseDemo (fun _ => false) [rowFull, rowBadMeta, rowNoMeta] =
    ([Event.transformed recFull, Event.inserted recFull],
     some (Err.jsonError "\x7bbad json")) := rfl

/-! ### Helper lemmas -/

theorem getItem_ok_iff (r : Row) (k : String) (c : Cell) :
    getItem r k = Except.ok c ↔ findCol r k = some c := by
  unfold getItem
  cases h : findCol r k <;> simp

theorem getItem_error_eq (r : Row) (k : String) (e : Err)
    (h : getItem r k = Except.error e) : e = Err.keyError k := by
  unfold getItem at h
  cases hf : findCol r k <;> rw [hf] at h <;> simp at h
  exact h.symm

/-- Inversion for a successful `event_data` construction: every column
lookup succeeded and the record is the literal five-entry dictionary. -/
theorem eventData_ok_elim (parse : String → Option Json) (r : Row) (d : EventData)
    (hd : eventData parse r = Except.ok d) :
    ∃ rid etid ts off md,
      findCol r "recording_id" = some rid ∧
      findCol r "event_type_id" = some etid ∧
      findCol r "timestamp" = some ts ∧
      findCol r "offset_ms" = some off ∧
      metadataExpr parse r = Except.ok md ∧
      d = [("recording_id", Value.cell rid), ("event_type_id", Value.cell etid),
           ("timestamp", Value.cell ts), ("offset_ms", Value.cell off),
           ("metadata", Value.json md)] := by
  unfold eventData at hd
  cases h1 : getItem r "recording_id" with
  | error e => rw [h1] at hd; simp at hd
  | ok rid =>
    rw [h1] at hd
    cases h2 : getItem r "event_type_id" with
    | error e => rw [h2] at hd; simp at hd
    | ok etid =>
      rw [h2] at hd
      cases h3 : getItem r "timestamp" with
      | error e => rw [h3] at hd; simp at hd
      | ok ts =>
        rw [h3] at hd
        cases h4 : getItem r "offset_ms" with
        | error e => rw [h4] at hd; simp at hd
        | ok off =>
          rw [h4] at hd
          cases h5 : metadataExpr parse r with
          | error e => rw [h5] at hd; simp at hd
          | ok md =>
            rw [h5] at hd
            simp only [Except.ok.injEq] at hd
            exact ⟨rid, etid, ts, off, md,
              (getItem_ok_iff r _ rid).mp h1, (getItem_ok_iff r _ etid).mp h2,
              (getItem_ok_iff r _ ts).mp h3, (getItem_ok_iff r _ off).mp h4,
              rfl, hd.symm⟩

theorem getKey_metadata_eq (rid etid ts off : Cell) (md : Json) :
    getKey [("recording_id", Value.cell rid), ("event_type_id", Value.cell etid),
            ("timestamp", Value.cell ts), ("offset_ms", Value.cell off),
            ("metadata", Value.json md)] "metadata" = some (Value.json md) := rfl

/-! ### Per-row claims -/

/-- C1: for every row from which a record is derived, the record's
`metadata` entry is the JSON-parse of the metadata cell when the column is
present with a non-null cell, and the empty object when the column is
absent or the cell is null. -/
theorem metadata_field_correct (parse : String → Option Json) (r : Row) (d : EventData)
    (hd : eventData parse r = Except.ok d) :
    (∀ c, findCol r "metadata" = some c → notna c = true →
        ∃ s j, c = Cell.str s ∧ parse s = some j ∧
          getKey d "metadata" = some (Value.json j)) ∧
    ((findCol r "metadata" = none ∨ findCol r "metadata" = some Cell.na) →
        getKey d "metadata" = some (Value.json (Json.obj []))) := by
  obtain ⟨rid, etid, ts, off, md, h1, h2, h3, h4, h5, hdeq⟩ :=
    eventData_ok_elim parse r d hd
  subst hdeq
  constructor
  · intro c hc hna
    simp only [metadataExpr, hc, hna, if_true] at h5
    cases c with
    | na => simp [notna] at hna
    | num n => simp [jsonLoads] at h5
    | str s =>
      simp only [jsonLoads] at h5
      cases hp : parse s with
      | none => rw [hp] at h5; simp at h5
      | some j =>
        rw [hp] at h5
        simp only [Except.ok.injEq] at h5
        subst h5
        exact ⟨s, j, rfl, hp, getKey_metadata_eq rid etid ts off j⟩
  · intro h
    rcases h with h | h
    · simp only [metadataExpr, h, Except.ok.injEq] at h5
      subst h5
      exact getKey_metadata_eq rid etid ts off (Json.obj [])
    · simp only [metadataExpr, h, notna, Bool.false_eq_true, if_false,
        Except.ok.injEq] at h5
      subst h5
      exact getKey_metadata_eq rid etid ts off (Json.obj [])

/-- C3: the four scalar entries of a derived record are the row's cells,
copied verbatim, whatever values those cells hold. -/
theorem scalar_fields_verbatim (parse : String → Option Json) (r : Row) (d : EventData)
    (hd : eventData parse r = Except.ok d) :
    (∃ c, findCol r "recording_id" = some c ∧ getKey d "recording_id" = some (Value.cell c)) ∧
    (∃ c, findCol r "event_type_id" = some c ∧ getKey d "event_type_id" = some (Value.cell c)) ∧
    (∃ c, findCol r "timestamp" = some c ∧ getKey d "timestamp" = some (Value.cell c)) ∧
    (∃ c, findCol r "offset_ms" = some c ∧ getKey d "offset_ms" = some (Value.cell c)) := by
  obtain ⟨rid, etid, ts, off, md, h1, h2, h3, h4, h5, hdeq⟩ :=
    eventData_ok_elim parse r d hd
  subst hdeq
  exact ⟨⟨rid, h1, rfl⟩, ⟨etid, h2, rfl⟩, ⟨ts, h3, rfl⟩, ⟨off, h4, rfl⟩⟩

/-- C8: a derived record carries exactly the five fixed keys, in dict
literal order; no other spreadsheet column reaches the record. -/
theorem record_keys_exact (parse : String → Option Json) (r : Row) (d : EventData)
    (hd : eventData parse r = Except.ok d) :
    d.map Prod.fst =
      ["recording_id", "event_type_id", "timestamp", "offset_ms", "metadata"] := by
  obtain ⟨rid, etid, ts, off, md, h1, h2, h3, h4, h5, hdeq⟩ :=
    eventData_ok_elim parse r d hd
  subst hdeq
  rfl

/-- C9: a metadata cell holding valid non-object JSON text yields that
parsed value, not the empty-object default. -/
theorem nonobject_metadata_preserved (parse : String → Option Json) (r : Row)
    (d : EventData) (s : String) (j : Json)
    (hd : eventData parse r = Except.ok d)
    (hcell : findCol r "metadata" = some (Cell.str s))
    (hparse : parse s = some j)
    (hnotobj : ∀ fs, j ≠ Json.obj fs) :
    getKey d "metadata" = some (Value.json j) ∧
    getKey d "metadata" ≠ some (Value.json (Json.obj [])) := by
  obtain ⟨rid, etid, ts, off, md, h1, h2, h3, h4, h5, hdeq⟩ :=
    eventData_ok_elim parse r d hd
  subst hdeq
  simp only [metadataExpr, hcell, notna, if_true, jsonLoads, hparse,
    Except.ok.injEq] at h5
  subst h5
  refine ⟨getKey_metadata_eq rid etid ts off j, ?_⟩
  intro hcontra
  rw [getKey_metadata_eq rid etid ts off j] at hcontra
  have hj := Option.some.inj hcontra
  injection hj with hj
  exact hnotobj [] hj

/-! ### Run-level helper lemmas -/

theorem runGo_cons_ok (parse : String → Option Json) (fails : Nat → Bool) (i : Nat)
    (r : Row) (rest : List Row) (d : EventData)
    (hd : eventData parse r = Except.ok d) (hf : fails i = false) :
    runGo parse fails i (r :: rest) =
      (Event.transformed d :: Event.inserted d :: (runGo parse fails (i + 1) rest).1,
       (runGo parse fails (i + 1) rest).2) := by
  simp [runGo, hd, hf]

theorem runGo_cons_err (parse : String → Option Json) (fails : Nat → Bool) (i : Nat)
    (r : Row) (rest : List Row) (e : Err)
    (hd : eventData parse r = Except.error e) :
    runGo parse fails i (r :: rest) = ([], some e) := by
  simp [runGo, hd]

theorem runGo_cons_fail (parse : String → Option Json) (fails : Nat → Bool) (i : Nat)
    (r : Row) (rest : List Row) (d : EventData)
    (hd : eventData parse r = Except.ok d) (hf : fails i = true) :
    runGo parse fails i (r :: rest) =
      ([Event.transformed d], some (Err.insertError i)) := by
  simp [runGo, hd, hf]

theorem rowEvents_ok (parse : String → Option Json) (r : Row) (d : EventData)
    (hd : eventData parse r = Except.ok d) :
    rowEvents parse r = [Event.transformed d, Event.inserted d] := by
  simp [rowEvents, hd]

/-- A prefix of rows that all transform successfully and whose inserts all
succeed contributes its per-row events and the run continues after it. -/
theorem runGo_append_ok (parse : String → Option Json) (fails : Nat → Bool)
    (pre rest : List Row) (i : Nat)
    (hpre : ∀ r ∈ pre, ∃ d, eventData parse r = Except.ok d)
    (hfails : ∀ j, j < pre.length → fails (i + j) = false) :
    runGo parse fails i (pre ++ rest) =
      (pre.flatMap (rowEvents parse) ++ (runGo parse fails (i + pre.length) rest).1,
       (runGo parse fails (i + pre.length) rest).2) := by
  induction pre generalizing i with
  | nil => simp
  | cons r pre ih =>
    obtain ⟨d, hdok⟩ := hpre r (List.mem_cons_self r pre)
    have hf0 : fails i = false := by simpa using hfails 0 (by simp)
    rw [List.cons_append, runGo_cons_ok parse fails i r (pre ++ rest) d hdok hf0]
    have ih' := ih (i + 1) (fun r hr => hpre r (List.mem_cons_of_mem _ hr))
      (fun j hj => by
        have h := hfails (j + 1) (by simpa using Nat.succ_lt_succ hj)
        have harith : i + (j + 1) = i + 1 + j := by omega
        rw [harith] at h
        exact h)
    rw [ih']
    have harith : i + 1 + pre.length = i + (r :: pre).length := by simp; omega
    rw [harith, List.flatMap_cons, rowEvents_ok parse r d hdok]
    rfl

theorem insertedOf_append (a b : List Event) :
    insertedOf (a ++ b) = insertedOf a ++ insertedOf b := by
  induction a with
  | nil => rfl
  | cons e a ih => cases e <;> simp [insertedOf, ih]

/-- Over a clean prefix, the successful inserts are exactly the derived
records, one per row, in row order. -/
theorem insertedOf_flatMap (parse : String → Option Json) (rows : List Row) :
    insertedOf (rows.flatMap (rowEvents parse)) =
      rows.filterMap (fun r => (eventData parse r).toOption) := by
  induction rows with
  | nil => rfl
  | cons r rows ih =>
    rw [List.flatMap_cons, insertedOf_append, List.filterMap_cons]
    cases hd : eventData parse r with
    | error e => simp [rowEvents, hd, insertedOf, Except.toOption, ih]
    | ok d => simp [rowEvents, hd, insertedOf, Except.toOption, ih]

theorem filterMap_length_of_ok (parse : String → Option Json) (rows : List Row)
    (hok : ∀ r ∈ rows, ∃ d, eventData parse r = Except.ok d) :
    (rows.filterMap fun r => (eventData parse r).toOption).length = rows.length := by
  induction rows with
  | nil => rfl
  | cons r rows ih =>
    obtain ⟨d, hd⟩ := hok r (List.mem_cons_self r rows)
    have hih := ih (fun r hr => hok r (List.mem_cons_of_mem _ hr))
    rw [List.filterMap_cons, hd]
    show (d :: List.filterMap (fun r => (eventData parse r).toOption) rows).length
      = rows.length + 1
    rw [List.length_cons, hih]

theorem eventData_err_col1 (parse : String → Option Json) (r : Row)
    (h : findCol r "recording_id" = none) :
    eventData parse r = Except.error (Err.keyError "recording_id") := by
  unfold eventData getItem
  rw [h]

theorem eventData_err_col2 (parse : String → Option Json) (r : Row) (c1 : Cell)
    (h1 : findCol r "recording_id" = some c1)
    (h : findCol r "event_type_id" = none) :
    eventData parse r = Except.error (Err.keyError "event_type_id") := by
  unfold eventData getItem
  rw [h1, h]

theorem eventData_err_col3 (parse : String → Option Json) (r : Row) (c1 c2 : Cell)
    (h1 : findCol r "recording_id" = some c1)
    (h2 : findCol r "event_type_id" = some c2)
    (h : findCol r "timestamp" = none) :
    eventData parse r = Except.error (Err.keyError "timestamp") := by
  unfold eventData getItem
  rw [h1, h2, h]

theorem eventData_err_col4 (parse : String → Option Json) (r : Row) (c1 c2 c3 : Cell)
    (h1 : findCol r "recording_id" = some c1)
    (h2 : findCol r "event_type_id" = some c2)
    (h3 : findCol r "timestamp" = some c3)
    (h : findCol r "offset_ms" = none) :
    eventData parse r = Except.error (Err.keyError "offset_ms") := by
  unfold eventData getItem
  rw [h1, h2, h3, h]

/-! ### Run-level claims -/

/-- C2: a row whose metadata cell fails JSON decoding aborts the whole run
at that row: the earlier rows are each transformed and inserted, and no
later row produces any event (no skip-and-continue). -/
theorem malformed_metadata_aborts_run (parse : String → Option Json)
    (fails : Nat → Bool) (pre post : List Row) (bad : Row) (s : String)
    (hpre : ∀ r ∈ pre, ∃ d, eventData parse r = Except.ok d)
    (hfails : ∀ j, j < pre.length → fails j = false)
    (hbad : eventData parse bad = Except.error (Err.jsonError s)) :
    run parse fails (pre ++ bad :: post) =
      (pre.flatMap (rowEvents parse), some (Err.jsonError s)) := by
  unfold run
  rw [runGo_append_ok parse fails pre (bad :: post) 0 hpre
    (fun j hj => by simpa using hfails j hj)]
  rw [show 0 + pre.length = pre.length from by omega]
  rw [runGo_cons_err parse fails pre.length bad post (Err.jsonError s) hbad]
  simp

/-- C4: when every row transforms successfully and every insert succeeds,
the run ends cleanly with exactly one successful insert per row, the
inserted records being the derived records in input row order. -/
theorem one_insert_per_row_in_order (parse : String → Option Json)
    (fails : Nat → Bool) (rows : List Row)
    (hok : ∀ r ∈ rows, ∃ d, eventData parse r = Except.ok d)
    (hnofail : ∀ j, fails j = false) :
    (run parse fails rows).2 = none ∧
    insertedOf (run parse fails rows).1 =
      rows.filterMap (fun r => (eventData parse r).toOption) ∧
    (insertedOf (run parse fails rows).1).length = rows.length := by
  have h : runGo parse fails 0 rows = (rows.flatMap (rowEvents parse), none) := by
    have h0 := runGo_append_ok parse fails rows [] 0 hok (fun j _ => hnofail (0 + j))
    rw [List.append_nil] at h0
    rw [show runGo parse fails (0 + rows.length) [] =
      (([] : List Event), (none : Option Err)) from rfl] at h0
    simpa using h0
  unfold run
  rw [h]
  refine ⟨rfl, insertedOf_flatMap parse rows, ?_⟩
  have hlen := filterMap_length_of_ok parse rows hok
  rw [← insertedOf_flatMap parse rows] at hlen
  exact hlen

/-- C5: when the insert call of some row fails, the run stops right there:
the earlier rows' inserts remain committed, the failing row was transformed
but not inserted, and no later row produces any event. -/
theorem insert_failure_aborts_run (parse : String → Option Json)
    (fails : Nat → Bool) (pre post : List Row) (bad : Row) (dbad : EventData)
    (hpre : ∀ r ∈ pre, ∃ d, eventData parse r = Except.ok d)
    (hfails : ∀ j, j < pre.length → fails j = false)
    (hbad : eventData parse bad = Except.ok dbad)
    (hfail : fails pre.length = true) :
    run parse fails (pre ++ bad :: post) =
      (pre.flatMap (rowEvents parse) ++ [Event.transformed dbad],
       some (Err.insertError pre.length)) ∧
    insertedOf (run parse fails (pre ++ bad :: post)).1 =
      pre.filterMap (fun r => (eventData parse r).toOption) := by
  have h : run parse fails (pre ++ bad :: post) =
      (pre.flatMap (rowEvents parse) ++ [Event.transformed dbad],
       some (Err.insertError pre.length)) := by
    unfold run
    rw [runGo_append_ok parse fails pre (bad :: post) 0 hpre
      (fun j hj => by simpa using hfails j hj)]
    rw [show 0 + pre.length = pre.length from by omega]
    rw [runGo_cons_fail parse fails pre.length bad post dbad hbad hfail]
  refine ⟨h, ?_⟩
  rw [h]
  show insertedOf (pre.flatMap (rowEvents parse) ++ [Event.transformed dbad]) = _
  rw [insertedOf_append, insertedOf_flatMap]
  simp [insertedOf]

/-- C6: a first row missing one of the four unconditionally read columns
aborts the run with a key-lookup error before any event is produced: no
record is transformed and no insert is issued for the sheet. -/
theorem missing_column_aborts_run (parse : String → Option Json)
    (fails : Nat → Bool) (r0 : Row) (rest : List Row) (c : String)
    (hc : c = "recording_id" ∨ c = "event_type_id" ∨ c = "timestamp" ∨
      c = "offset_ms")
    (hmiss : findCol r0 c = none) :
    (run parse fails (r0 :: rest)).1 = [] ∧
    insertedOf (run parse fails (r0 :: rest)).1 = [] ∧
    ∃ k, (run parse fails (r0 :: rest)).2 = some (Err.keyError k) := by
  have herr : ∃ k, eventData parse r0 = Except.error (Err.keyError k) := by
    rcases hc with rfl | rfl | rfl | rfl
    · exact ⟨"recording_id", eventData_err_col1 parse r0 hmiss⟩
    · cases h1 : findCol r0 "recording_id" with
      | none => exact ⟨"recording_id", eventData_err_col1 parse r0 h1⟩
      | some c1 => exact ⟨"event_type_id", eventData_err_col2 parse r0 c1 h1 hmiss⟩
    · cases h1 : findCol r0 "recording_id" with
      | none => exact ⟨"recording_id", eventData_err_col1 parse r0 h1⟩
      | some c1 =>
        cases h2 : findCol r0 "event_type_id" with
        | none => exact ⟨"event_type_id", eventData_err_col2 parse r0 c1 h1 h2⟩
        | some c2 => exact ⟨"timestamp", eventData_err_col3 parse r0 c1 c2 h1 h2 hmiss⟩
    · cases h1 : findCol r0 "recording_id" with
      | none => exact ⟨"recording_id", eventData_err_col1 parse r0 h1⟩
      | some c1 =>
        cases h2 : findCol r0 "event_type_id" with
        | none => exact ⟨"event_type_id", eventData_err_col2 parse r0 c1 h1 h2⟩
        | some c2 =>
          cases h3 : findCol r0 "timestamp" with
          | none => exact ⟨"timestamp", eventData_err_col3 parse r0 c1 c2 h1 h2 h3⟩
          | some c3 =>
            exact ⟨"offset_ms", eventData_err_col4 parse r0 c1 c2 c3 h1 h2 h3 hmiss⟩
  obtain ⟨k, hk⟩ := herr
  unfold run
  rw [runGo_cons_err parse fails 0 r0 rest (Err.keyError k) hk]
  exact ⟨rfl, rfl, k, rfl⟩

/-- C10: a row whose metadata text fails JSON decoding never reaches its
own insert call: the record construction raises first, so from that row on
the run emits no event at all, in particular no insert for the row itself. -/
theorem parse_error_precedes_insert (parse : String → Option Json)
    (fails : Nat → Bool) (i : Nat) (r : Row) (rest : List Row) (s : String)
    (hbad : eventData parse r = Except.error (Err.jsonError s)) :
    runGo parse fails i (r :: rest) = ([], some (Err.jsonError s)) ∧
    insertedOf (runGo parse fails i (r :: rest)).1 = [] := by
  rw [runGo_cons_err parse fails i r rest (Err.jsonError s) hbad]
  exact ⟨rfl, rfl⟩

/-! ### Concrete witnesses -/

/-- An insert backend that never fails. -/
def noFails : Nat → Bool := fun _ => false

/-- An insert backend whose second call (index 1) fails. -/
def failsAt1 : Nat → Bool := fun i => i == 1

/-- Witness for C1 at a row whose metadata cell holds a JSON object. -/
theorem metadata_field_correct_witness :
    (∀ c, findCol rowFull "metadata" = some c → notna c = true →
        ∃ s j, c = Cell.str s ∧ parseDemo s = some j ∧
          getKey recFull "metadata" = some (Value.json j)) ∧
    ((findCol rowFull "metadata" = none ∨ findCol rowFull "metadata" = some Cell.na) →
        getKey recFull "metadata" = some (Value.json (Json.obj []))) :=
  metadata_field_correct parseDemo rowFull recFull rfl

/-- Witness for C2: a malformed middle row stops the run after the first
row's insert, and the trailing valid row is never touched. -/
theorem malformed_metadata_aborts_run_witness :
    run parseDemo noFails ([rowFull] ++ rowBadMeta :: [rowNoMeta]) =
      ([rowFull].flatMap (rowEvents parseDemo), some (Err.jsonError "\x7bbad json")) :=
  malformed_metadata_aborts_run parseDemo noFails [rowFull] [rowNoMeta] rowBadMeta
    "\x7bbad json"
    (fun r hr => by
      rw [show r = rowFull from by simpa using hr]
      exact ⟨recFull, rfl⟩)
    (fun j hj => rfl)
    rfl

/-- Witness for C3 at a concrete well-formed row. -/
theorem scalar_fields_verbatim_witness :
    (∃ c, findCol rowFull "recording_id" = some c ∧
      getKey recFull "recording_id" = some (Value.cell c)) ∧
    (∃ c, findCol rowFull "event_type_id" = some c ∧
      getKey recFull "event_type_id" = some (Value.cell c)) ∧
    (∃ c, findCol rowFull "timestamp" = some c ∧
      getKey recFull "timestamp" = some (Value.cell c)) ∧
    (∃ c, findCol rowFull "offset_ms" = some c ∧
      getKey recFull "offset_ms" = some (Value.cell c)) :=
  scalar_fields_verbatim parseDemo rowFull recFull rfl

/-- Witness for C4 on a concrete 3-row sheet: three inserts, in order. -/
theorem one_insert_per_row_in_order_witness :
    (run parseDemo noFails [rowFull, rowNoMeta, rowNullMeta]).2 = none ∧
    insertedOf (run parseDemo noFails [rowFull, rowNoMeta, rowNullMeta]).1 =
      [rowFull, rowNoMeta, rowNullMeta].filterMap
        (fun r => (eventData parseDemo r).toOption) ∧
    (insertedOf (run parseDemo noFails [rowFull, rowNoMeta, rowNullMeta]).1).length =
      [rowFull, rowNoMeta, rowNullMeta].length :=
  one_insert_per_row_in_order parseDemo noFails [rowFull, rowNoMeta, rowNullMeta]
    (fun r hr => by
      simp only [List.mem_cons, List.not_mem_nil, or_false] at hr
      rcases hr with rfl | rfl | rfl
      · exact ⟨recFull, rfl⟩
      · exact ⟨recNoMeta, rfl⟩
      · exact ⟨recNullMeta, rfl⟩)
    (fun j => rfl)

/-- Witness for C5: the second insert fails, the first stays committed,
and the third row is never processed. -/
theorem insert_failure_aborts_run_witness :
    run parseDemo failsAt1 ([rowFull] ++ rowNullMeta :: [rowNoMeta]) =
      ([rowFull].flatMap (rowEvents parseDemo) ++ [Event.transformed recNullMeta],
       some (Err.insertError [rowFull].length)) ∧
    insertedOf (run parseDemo failsAt1 ([rowFull] ++ rowNullMeta :: [rowNoMeta])).1 =
      [rowFull].filterMap (fun r => (eventData parseDemo r).toOption) :=
  insert_failure_aborts_run parseDemo failsAt1 [rowFull] [rowNoMeta] rowNullMeta
    recNullMeta
    (fun r hr => by
      rw [show r = rowFull from by simpa using hr]
      exact ⟨recFull, rfl⟩)
    (fun j hj => by
      rw [show j = 0 from by simpa using hj]
      rfl)
    rfl
    rfl

/-- Witness for C6: a first row with no `timestamp` column aborts the run
with a key-lookup error and no insert. -/
theorem missing_column_aborts_run_witness :
    (run parseDemo noFails (rowNoTs :: [rowFull])).1 = [] ∧
    insertedOf (run parseDemo noFails (rowNoTs :: [rowFull])).1 = [] ∧
    ∃ k, (run parseDemo noFails (rowNoTs :: [rowFull])).2 = some (Err.keyError k) :=
  missing_column_aborts_run parseDemo noFails rowNoTs [rowFull] "timestamp"
    (Or.inr (Or.inr (Or.inl rfl))) rfl

/-- Witness for C8 at a concrete row carrying only the five columns. -/
theorem record_keys_exact_witness :
    recFull.map Prod.fst =
      ["recording_id", "event_type_id", "timestamp", "offset_ms", "metadata"] :=
  record_keys_exact parseDemo rowFull recFull rfl

/-- Witness for C9: the metadata text `null` parses to the JSON null value
and the record keeps it, rather than the empty-object default. -/
theorem nonobject_metadata_preserved_witness :
    getKey recNullLit "metadata" = some (Value.json Json.null) ∧
    getKey recNullLit "metadata" ≠ some (Value.json (Json.obj [])) :=
  nonobject_metadata_preserved parseDemo rowNullLit recNullLit "null" Json.null
    rfl rfl rfl (fun _ h => Json.noConfusion h)

/-- Witness for C10: a row with malformed metadata yields no insert call
for itself. -/
theorem parse_error_precedes_insert_witness :
    runGo parseDemo noFails 0 (rowBadMeta :: [rowFull]) =
      ([], some (Err.jsonError "\x7bbad json")) ∧
    insertedOf (runGo parseDemo noFails 0 (rowBadMeta :: [rowFull])).1 = [] :=
  parse_error_precedes_insert parseDemo noFails 0 rowBadMeta [rowFull]
    "\x7bbad json" rfl

end XlsxImporter
